import Mathlib

/-!
Shallow embedding of `src/timeline.py` (the jfcrenshaw/timeline repository).

The repository is one Python file defining four record classes
(`Age`, `Period`, `Event`, `Country`) and one aggregator class `Timeline`
holding four name-keyed dict collections, with a `plot` method that derives
the global time range, places fence lines between country rows, and computes
x-axis ticks.

Modelling choices:
* Python floats are modelled as rationals (`ℚ`); the arithmetic the claims
  exercise (midpoints, min/max, floor division by 100) is exact on the
  inputs involved.
* Python dicts are modelled as ordered association lists with Python dict
  semantics: inserting a fresh key appends at the end, re-inserting an
  existing key replaces the value in place and keeps the position.
* `np.min` / `np.max` on a zero-size array raise a ValueError inside numpy;
  this is modelled as the `Except` error `RangeError.numpyZeroSizeReduce`.
* `plot` issues draw commands to the external matplotlib backend and writes
  no field of the Timeline; its embedding returns the numeric observables
  (derived start and end, fence positions, x-tick positions) together with
  the resulting Timeline state.
-/

/-- `Age.__init__` (timeline.py lines 13-47): stores all supplied fields verbatim. -/
structure Age where
  start : ℚ
  «end» : ℚ
  color : String
  y : ℚ
  top_alpha : ℚ
  bottom_alpha : ℚ
  url : Option String
deriving DecidableEq, Repr

/-- `Period.__init__` (timeline.py lines 56-98): stores all supplied fields verbatim. -/
structure Period where
  start : ℚ
  «end» : ℚ
  y : ℚ
  color : String
  alpha : ℚ
  fontsize : ℚ
  bold : Bool
  h : ℚ
  url : Option String
deriving DecidableEq, Repr

/-- `Event.__init__` (timeline.py lines 107-137): stores all supplied fields verbatim. -/
structure Event where
  year : ℚ
  y : ℚ
  color : String
  fontsize : ℚ
  bold : Bool
  url : Option String
deriving DecidableEq, Repr

/-- `Country.__init__` (timeline.py lines 147-157): stores all supplied fields verbatim. -/
structure Country where
  y : ℚ
  url : Option String
deriving DecidableEq, Repr

/-- Python dict assignment `d[k] = v`: replace in place when the key exists,
append at the end when it is fresh. -/
def dictInsert {α : Type} (k : String) (v : α) : List (String × α) → List (String × α)
  | [] => [(k, v)]
  | (k', v') :: rest => if k' = k then (k, v) :: rest else (k', v') :: dictInsert k v rest

/-- Python dict lookup `d[k]`, as an `Option`. -/
def dictGet {α : Type} (k : String) : List (String × α) → Option α
  | [] => none
  | (k', v) :: rest => if k' = k then some v else dictGet k rest

/-- `Timeline` (timeline.py line 160): four name-keyed collections,
modelled as ordered association lists (Python dicts preserve insertion
order). -/
structure Timeline where
  ages : List (String × Age)
  periods : List (String × Period)
  countries : List (String × Country)
  events : List (String × Event)
deriving DecidableEq, Repr

/-- `Timeline.__init__` (timeline.py lines 163-169): all four dicts start empty. -/
def Timeline.empty : Timeline :=
  { ages := [], periods := [], countries := [], events := [] }

/-- `Timeline.add_age` (timeline.py lines 171-214): construct an `Age` from
the supplied fields and store it under `name`. -/
def Timeline.add_age (t : Timeline) (name : String) (start «end» : ℚ) (color : String)
    (y top_alpha bottom_alpha : ℚ) (url : Option String) : Timeline :=
  { t with ages := dictInsert name ⟨start, «end», color, y, top_alpha, bottom_alpha, url⟩ t.ages }

/-- `Timeline.add_period` (timeline.py lines 216-266): construct a `Period`
from the supplied fields and store it under `name`. -/
def Timeline.add_period (t : Timeline) (name : String) (start «end» y : ℚ) (color : String)
    (alpha fontsize : ℚ) (bold : Bool) (h : ℚ) (url : Option String) : Timeline :=
  { t with periods := dictInsert name ⟨start, «end», y, color, alpha, fontsize, bold, h, url⟩ t.periods }

/-- `Timeline.add_event` (timeline.py lines 268-299): construct an `Event`
from the supplied fields and store it under `name`. -/
def Timeline.add_event (t : Timeline) (name : String) (year y : ℚ) (color : String)
    (fontsize : ℚ) (bold : Bool) (url : Option String) : Timeline :=
  { t with events := dictInsert name ⟨year, y, color, fontsize, bold, url⟩ t.events }

/-- `Timeline.add_country` (timeline.py lines 301-321): construct a `Country`
from the supplied fields and store it under `name`. -/
def Timeline.add_country (t : Timeline) (name : String) (y : ℚ)
    (url : Option String) : Timeline :=
  { t with countries := dictInsert name ⟨y, url⟩ t.countries }

/-- `Timeline._all_years` (timeline.py lines 323-342): flatten every start
and end of every Age, then of every Period, then every year of every Event,
into one sequence (in dict iteration order). Country records contribute
nothing. -/
def Timeline.all_years (t : Timeline) : List ℚ :=
  (t.ages.map (fun p => [p.2.start, p.2.«end»])).flatten
    ++ (t.periods.map (fun p => [p.2.start, p.2.«end»])).flatten
    ++ t.events.map (fun p => p.2.year)

/-- The error raised by the range derivation. `numpyZeroSizeReduce` is the
ValueError numpy raises for `np.min` or `np.max` of a zero-size array (what
`timeline.py` actually propagates). `emptyTimelineError` is modelled from
the spec: the designated named "no temporal data" failure the spec calls
`EmptyTimelineError`; no code under src defines or raises it. -/
inductive RangeError
  | numpyZeroSizeReduce
  | emptyTimelineError
deriving DecidableEq, Repr

/-- `np.min` on a nonempty sequence (the empty case is the error of the caller). -/
def listMin : List ℚ → ℚ
  | [] => 0
  | x :: xs => xs.foldl min x

/-- `np.max` on a nonempty sequence (the empty case is the error of the caller). -/
def listMax : List ℚ → ℚ
  | [] => 0
  | x :: xs => xs.foldl max x

/-- `Timeline.start` (timeline.py lines 344-349): `np.min(self._all_years)`,
which raises inside numpy when the sequence is empty. -/
def Timeline.start (t : Timeline) : Except RangeError ℚ :=
  if t.all_years = [] then .error .numpyZeroSizeReduce else .ok (listMin t.all_years)

/-- `Timeline.end` (timeline.py lines 351-356): `np.max(self._all_years)`,
which raises inside numpy when the sequence is empty. -/
def Timeline.«end» (t : Timeline) : Except RangeError ℚ :=
  if t.all_years = [] then .error .numpyZeroSizeReduce else .ok (listMax t.all_years)

/-- The fence-placement computation (timeline.py lines 476-489), as a
function of the country y-positions in dict iteration order. With more than
one country: `(y_countries[1:] + y_countries[:-1]) / 2` elementwise — the
midpoints of consecutive entries in the given order (the code does not
sort) — then append `2 * np.max(y_countries) - np.max(y_fences)`. Otherwise
`2 * y_countries` elementwise. -/
def fencesOf (ys : List ℚ) : List ℚ :=
  if 1 < ys.length then
    let interior := (ys.zip ys.tail).map fun p => (p.1 + p.2) / 2
    interior ++ [2 * listMax ys - listMax interior]
  else
    ys.map fun y => 2 * y

/-- The country y-positions in dict iteration order
(timeline.py lines 476-478). -/
def Timeline.countryYs (t : Timeline) : List ℚ :=
  t.countries.map fun p => p.2.y

/-- `np.arange(a, b, 100)`: the values `a + 100 * i` for
`0 ≤ i < ⌈(b - a) / 100⌉`. -/
def arange100 (a b : ℚ) : List ℚ :=
  (List.range (⌈(b - a) / 100⌉).toNat).map fun i : ℕ => a + 100 * (i : ℚ)

/-- `first_tick` (timeline.py line 518): `((start - 1) // 100 + 1) * 100`,
with Python floor division. -/
def firstTick (start : ℚ) : ℚ :=
  (⌊(start - 1) / 100⌋ + 1) * 100

/-- `final_tick` (timeline.py line 519): `(end // 100 + 1) * 100`,
with Python floor division. -/
def finalTick («end» : ℚ) : ℚ :=
  (⌊«end» / 100⌋ + 1) * 100

/-- The x-tick positions (timeline.py lines 517-520):
`np.arange(first_tick, final_tick, 100)`. -/
def xticksOf (start «end» : ℚ) : List ℚ :=
  arange100 (firstTick start) (finalTick «end»)

/-- The configuration parameters of `Timeline.plot`
(timeline.py lines 358-367), with the defaults of the source. -/
structure PlotConfig where
  figsize : ℚ × ℚ := (16, 10)
  dpi : ℤ := 100
  country_offset : ℚ := 10
  fences : Bool := true
  fence_color : String := "k"
  fence_alpha : ℚ := 1/5
  hide_yaxis : Bool := true
deriving DecidableEq, Repr

/-- The numeric observables `Timeline.plot` draws from: the derived start
and end of the x-range, the fence y-positions actually plotted, and the
x-tick positions. -/
structure RenderResult where
  start : ℚ
  «end» : ℚ
  y_fences : List ℚ
  xticks : List ℚ
deriving DecidableEq, Repr

/-- `Timeline.plot` (timeline.py lines 358-531). The method reads the four
collections, derives the range (aborting with the numpy error when there is
no temporal data, since `self.start` and `self.end` are evaluated for the
tick computation and the axis limits), computes the fences when enabled,
and the ticks. All drawing goes to the matplotlib figure; no statement of
the method writes a field of `self`, so the state is returned unchanged. -/
def Timeline.plot (t : Timeline) (cfg : PlotConfig) :
    Except RangeError (RenderResult × Timeline) :=
  t.start.bind fun s =>
    t.«end».bind fun e =>
      .ok ({ start := s, «end» := e,
             y_fences := if cfg.fences then fencesOf t.countryYs else [],
             xticks := xticksOf s e }, t)

/-! ### Helper lemmas on the dict model -/

theorem dictGet_dictInsert_self {α : Type} (k : String) (v : α) (l : List (String × α)) :
    dictGet k (dictInsert k v l) = some v := by
  induction l with
  | nil => simp [dictInsert, dictGet]
  | cons p rest ih =>
    obtain ⟨k', v'⟩ := p
    by_cases h : k' = k
    · simp [dictInsert, dictGet, h]
    · simp [dictInsert, dictGet, h, ih]

theorem dictGet_dictInsert_ne {α : Type} {k k' : String} (v : α) (l : List (String × α))
    (h : k' ≠ k) : dictGet k' (dictInsert k v l) = dictGet k' l := by
  induction l with
  | nil => simp [dictInsert, dictGet, Ne.symm h]
  | cons p rest ih =>
    obtain ⟨k'', v''⟩ := p
    by_cases hk : k'' = k
    · subst hk
      simp [dictInsert, dictGet, Ne.symm h]
    · by_cases hk' : k'' = k'
      · simp [dictInsert, dictGet, hk, hk', h]
      · simp [dictInsert, dictGet, hk, hk', ih]

theorem mem_keys_dictInsert {α : Type} {x k : String} {v : α} {l : List (String × α)}
    (h : x ∈ (dictInsert k v l).map Prod.fst) : x = k ∨ x ∈ l.map Prod.fst := by
  induction l with
  | nil => simpa [dictInsert] using h
  | cons p rest ih =>
    obtain ⟨k', v'⟩ := p
    by_cases hk : k' = k
    · subst hk
      simpa [dictInsert] using h
    · simp only [dictInsert, if_neg hk, List.map_cons, List.mem_cons] at h
      rcases h with h | h
      · exact Or.inr (by simp [h])
      · rcases ih h with h | h
        · exact Or.inl h
        · exact Or.inr (by simp [h])

theorem keys_nodup_dictInsert {α : Type} (k : String) (v : α) {l : List (String × α)}
    (h : (l.map Prod.fst).Nodup) : ((dictInsert k v l).map Prod.fst).Nodup := by
  induction l with
  | nil => simp [dictInsert]
  | cons p rest ih =>
    obtain ⟨k', v'⟩ := p
    simp only [List.map_cons, List.nodup_cons] at h
    by_cases hk : k' = k
    · subst hk
      simpa [dictInsert] using h
    · simp only [dictInsert, if_neg hk, List.map_cons, List.nodup_cons]
      refine ⟨fun hmem => ?_, ih h.2⟩
      rcases mem_keys_dictInsert hmem with rfl | hmem
      · exact hk rfl
      · exact h.1 hmem

/-! ### Helper lemmas on `listMin` and `listMax` -/

theorem foldl_max_mem (xs : List ℚ) : ∀ a : ℚ, xs.foldl max a = a ∨ xs.foldl max a ∈ xs := by
  induction xs with
  | nil => intro a; simp
  | cons x xs ih =>
    intro a
    rw [List.foldl_cons]
    rcases ih (max a x) with h | h
    · rw [h]
      rcases max_choice a x with hm | hm
      · exact Or.inl hm
      · exact Or.inr (by rw [hm]; exact List.mem_cons_self x xs)
    · exact Or.inr (List.mem_cons_of_mem x h)

theorem le_foldl_max (xs : List ℚ) : ∀ a : ℚ, a ≤ xs.foldl max a ∧ ∀ x ∈ xs, x ≤ xs.foldl max a := by
  induction xs with
  | nil => intro a; simp
  | cons x xs ih =>
    intro a
    obtain ⟨h1, h2⟩ := ih (max a x)
    refine ⟨le_trans (le_max_left a x) h1, fun y hy => ?_⟩
    rcases List.mem_cons.mp hy with rfl | hy
    · exact le_trans (le_max_right a y) h1
    · exact h2 y hy

theorem listMax_mem {l : List ℚ} (h : l ≠ []) : listMax l ∈ l := by
  cases l with
  | nil => exact absurd rfl h
  | cons x xs =>
    rcases foldl_max_mem xs x with hm | hm
    · simp [listMax, hm]
    · simp [listMax, List.mem_cons, hm]

theorem le_listMax {l : List ℚ} {x : ℚ} (h : x ∈ l) : x ≤ listMax l := by
  cases l with
  | nil => simp at h
  | cons y xs =>
    rcases List.mem_cons.mp h with rfl | hx
    · exact (le_foldl_max xs x).1
    · exact (le_foldl_max xs y).2 x hx

theorem foldl_min_mem (xs : List ℚ) : ∀ a : ℚ, xs.foldl min a = a ∨ xs.foldl min a ∈ xs := by
  induction xs with
  | nil => intro a; simp
  | cons x xs ih =>
    intro a
    rw [List.foldl_cons]
    rcases ih (min a x) with h | h
    · rw [h]
      rcases min_choice a x with hm | hm
      · exact Or.inl hm
      · exact Or.inr (by rw [hm]; exact List.mem_cons_self x xs)
    · exact Or.inr (List.mem_cons_of_mem x h)

theorem foldl_min_le (xs : List ℚ) : ∀ a : ℚ, xs.foldl min a ≤ a ∧ ∀ x ∈ xs, xs.foldl min a ≤ x := by
  induction xs with
  | nil => intro a; simp
  | cons x xs ih =>
    intro a
    obtain ⟨h1, h2⟩ := ih (min a x)
    refine ⟨le_trans h1 (min_le_left a x), fun y hy => ?_⟩
    rcases List.mem_cons.mp hy with rfl | hy
    · exact le_trans h1 (min_le_right a y)
    · exact h2 y hy

theorem listMin_mem {l : List ℚ} (h : l ≠ []) : listMin l ∈ l := by
  cases l with
  | nil => exact absurd rfl h
  | cons x xs =>
    rcases foldl_min_mem xs x with hm | hm
    · simp [listMin, hm]
    · simp [listMin, List.mem_cons, hm]

theorem listMin_le {l : List ℚ} {x : ℚ} (h : x ∈ l) : listMin l ≤ x := by
  cases l with
  | nil => simp at h
  | cons y xs =>
    rcases List.mem_cons.mp h with rfl | hx
    · exact (foldl_min_le xs x).1
    · exact (foldl_min_le xs y).2 x hx

/-! ### Helper lemmas on `all_years` -/

theorem mem_all_years {t : Timeline} {x : ℚ} :
    x ∈ t.all_years ↔
      (∃ a ∈ t.ages, x = a.2.start ∨ x = a.2.«end») ∨
      (∃ p ∈ t.periods, x = p.2.start ∨ x = p.2.«end») ∨
      (∃ ev ∈ t.events, x = ev.2.year) := by
  simp only [Timeline.all_years, List.mem_append, List.mem_flatten, List.mem_map]
  constructor
  · rintro ((⟨ys, ⟨⟨a, ha, rfl⟩, hy⟩⟩ | ⟨ys, ⟨⟨p, hp, rfl⟩, hy⟩⟩) | ⟨ev, hev, rfl⟩)
    · exact Or.inl ⟨a, ha, by simpa using hy⟩
    · exact Or.inr (Or.inl ⟨p, hp, by simpa using hy⟩)
    · exact Or.inr (Or.inr ⟨ev, hev, rfl⟩)
  · rintro (⟨a, ha, hx⟩ | ⟨p, hp, hx⟩ | ⟨ev, hev, hx⟩)
    · exact Or.inl (Or.inl ⟨[a.2.start, a.2.«end»], ⟨a, ha, rfl⟩, by simpa using hx⟩)
    · exact Or.inl (Or.inr ⟨[p.2.start, p.2.«end»], ⟨p, hp, rfl⟩, by simpa using hx⟩)
    · exact Or.inr ⟨ev, hev, hx.symm⟩

/-! ### C3: range derivation on an empty Timeline -/

/-- C3: on a Timeline with zero Ages, zero Periods and zero Events, the
range derivation fails — but with the ValueError numpy raises for a
zero-size reduction, not with the designated named empty-data error
(`EmptyTimelineError` / "no temporal data"), which no code in the
repository defines. The plot operation aborts with the same numpy error. -/
theorem empty_timeline_range_error :
    Timeline.empty.start = .error .numpyZeroSizeReduce ∧
    Timeline.empty.«end» = .error .numpyZeroSizeReduce ∧
    Timeline.empty.plot {} = .error .numpyZeroSizeReduce ∧
    RangeError.numpyZeroSizeReduce ≠ RangeError.emptyTimelineError := by
  refine ⟨rfl, rfl, rfl, by simp⟩

/-! ### C5: fence count -/

/-- C5: the number of fences produced equals the number of registered
countries: `n - 1` interior fences plus one top fence for `n ≥ 2`, one
fence for `n = 1`, and none for `n = 0` — in every case `n` fences. -/
theorem fence_count (t : Timeline) :
    (fencesOf t.countryYs).length = t.countries.length ∧
    (t.countries.length = 0 → fencesOf t.countryYs = []) := by
  have hlen : t.countryYs.length = t.countries.length := by
    simp [Timeline.countryYs]
  constructor
  · rw [← hlen]
    unfold fencesOf
    by_cases h : 1 < t.countryYs.length
    · simp only [h, if_pos, List.length_append, List.length_map, List.length_zip,
        List.length_tail, List.length_singleton]
      omega
    · simp [h]
  · intro h0
    have : t.countryYs = [] := List.eq_nil_of_length_eq_zero (hlen.trans h0)
    simp [this, fencesOf]

/-! ### C6: single-country fence -/

/-- C6: a Timeline with exactly one country at y-position `y` produces
exactly one fence, at `2 * y`; in particular a single country at `y = 25`
yields the fence list `[50]`. -/
theorem single_country_fence :
    (∀ (name : String) (y : ℚ) (url : Option String),
      fencesOf ((Timeline.empty.add_country name y url).countryYs) = [2 * y]) ∧
    fencesOf [25] = [50] := by
  constructor
  · intro name y url
    simp [Timeline.empty, Timeline.add_country, Timeline.countryYs, dictInsert, fencesOf]
  · norm_num [fencesOf]

/-! ### C8: insertion under an existing name replaces the record entirely -/

/-- C8: for each of the four insertion operations, inserting under a name
stores exactly the record built from the newly supplied field values (so a
second insertion under the same name replaces every field of the prior
record), and key uniqueness of each collection is preserved. -/
theorem add_replaces_record (t : Timeline) (name : String) :
    (∀ (s e : ℚ) (c : String) (y ta ba : ℚ) (u : Option String),
      dictGet name (t.add_age name s e c y ta ba u).ages = some ⟨s, e, c, y, ta, ba, u⟩ ∧
      ((t.ages.map Prod.fst).Nodup →
        ((t.add_age name s e c y ta ba u).ages.map Prod.fst).Nodup)) ∧
    (∀ (s e y : ℚ) (c : String) (al fs : ℚ) (b : Bool) (h : ℚ) (u : Option String),
      dictGet name (t.add_period name s e y c al fs b h u).periods
        = some ⟨s, e, y, c, al, fs, b, h, u⟩ ∧
      ((t.periods.map Prod.fst).Nodup →
        ((t.add_period name s e y c al fs b h u).periods.map Prod.fst).Nodup)) ∧
    (∀ (yr y : ℚ) (c : String) (fs : ℚ) (b : Bool) (u : Option String),
      dictGet name (t.add_event name yr y c fs b u).events = some ⟨yr, y, c, fs, b, u⟩ ∧
      ((t.events.map Prod.fst).Nodup →
        ((t.add_event name yr y c fs b u).events.map Prod.fst).Nodup)) ∧
    (∀ (y : ℚ) (u : Option String),
      dictGet name (t.add_country name y u).countries = some ⟨y, u⟩ ∧
      ((t.countries.map Prod.fst).Nodup →
        ((t.add_country name y u).countries.map Prod.fst).Nodup)) := by
  refine ⟨fun s e c y ta ba u => ⟨?_, fun hn => ?_⟩,
          fun s e y c al fs b h u => ⟨?_, fun hn => ?_⟩,
          fun yr y c fs b u => ⟨?_, fun hn => ?_⟩,
          fun y u => ⟨?_, fun hn => ?_⟩⟩
  · exact dictGet_dictInsert_self name _ t.ages
  · exact keys_nodup_dictInsert name _ hn
  · exact dictGet_dictInsert_self name _ t.periods
  · exact keys_nodup_dictInsert name _ hn
  · exact dictGet_dictInsert_self name _ t.events
  · exact keys_nodup_dictInsert name _ hn
  · exact dictGet_dictInsert_self name _ t.countries
  · exact keys_nodup_dictInsert name _ hn

/-- Witness for C8: a concrete re-insertion under the name "x" replaces the
old record, on a Timeline whose collections have nodup keys. -/
theorem add_replaces_record_witness :
    dictGet "x" ((Timeline.empty.add_age "x" 0 1 "red" 2 3 4 none).add_age "x" 5 6 "blue" 7 8 9 none).ages
      = some ⟨5, 6, "blue", 7, 8, 9, none⟩ ∧
    (((Timeline.empty.add_age "x" 0 1 "red" 2 3 4 none).add_age "x" 5 6 "blue" 7 8 9 none).ages.map
      Prod.fst).Nodup := by
  refine ⟨((add_replaces_record (Timeline.empty.add_age "x" 0 1 "red" 2 3 4 none) "x").1
            5 6 "blue" 7 8 9 none).1,
          ((add_replaces_record (Timeline.empty.add_age "x" 0 1 "red" 2 3 4 none) "x").1
            5 6 "blue" 7 8 9 none).2 ?_⟩
  simp [Timeline.empty, Timeline.add_age, dictInsert]

/-! ### C10: each insertion mutates only its own collection and entry -/

/-- C10: each insertion operation leaves the other three collections
unchanged, and leaves every entry of its own collection under a different
name unchanged. -/
theorem add_frame (t : Timeline) (name name' : String) :
    (∀ (s e : ℚ) (c : String) (y ta ba : ℚ) (u : Option String),
      (t.add_age name s e c y ta ba u).periods = t.periods ∧
      (t.add_age name s e c y ta ba u).countries = t.countries ∧
      (t.add_age name s e c y ta ba u).events = t.events ∧
      (name' ≠ name →
        dictGet name' (t.add_age name s e c y ta ba u).ages = dictGet name' t.ages)) ∧
    (∀ (s e y : ℚ) (c : String) (al fs : ℚ) (b : Bool) (h : ℚ) (u : Option String),
      (t.add_period name s e y c al fs b h u).ages = t.ages ∧
      (t.add_period name s e y c al fs b h u).countries = t.countries ∧
      (t.add_period name s e y c al fs b h u).events = t.events ∧
      (name' ≠ name →
        dictGet name' (t.add_period name s e y c al fs b h u).periods
          = dictGet name' t.periods)) ∧
    (∀ (yr y : ℚ) (c : String) (fs : ℚ) (b : Bool) (u : Option String),
      (t.add_event name yr y c fs b u).ages = t.ages ∧
      (t.add_event name yr y c fs b u).periods = t.periods ∧
      (t.add_event name yr y c fs b u).countries = t.countries ∧
      (name' ≠ name →
        dictGet name' (t.add_event name yr y c fs b u).events = dictGet name' t.events)) ∧
    (∀ (y : ℚ) (u : Option String),
      (t.add_country name y u).ages = t.ages ∧
      (t.add_country name y u).periods = t.periods ∧
      (t.add_country name y u).events = t.events ∧
      (name' ≠ name →
        dictGet name' (t.add_country name y u).countries = dictGet name' t.countries)) := by
  refine ⟨fun s e c y ta ba u => ⟨rfl, rfl, rfl, fun hne => ?_⟩,
          fun s e y c al fs b h u => ⟨rfl, rfl, rfl, fun hne => ?_⟩,
          fun yr y c fs b u => ⟨rfl, rfl, rfl, fun hne => ?_⟩,
          fun y u => ⟨rfl, rfl, rfl, fun hne => ?_⟩⟩
  · exact dictGet_dictInsert_ne _ t.ages hne
  · exact dictGet_dictInsert_ne _ t.periods hne
  · exact dictGet_dictInsert_ne _ t.events hne
  · exact dictGet_dictInsert_ne _ t.countries hne

/-- Witness for C10: adding the country "b" to a concrete Timeline leaves
the entry of the country "a" and the other collections unchanged. -/
theorem add_frame_witness :
    ((Timeline.empty.add_country "a" 1 none).add_country "b" 2 none).ages = [] ∧
    dictGet "a" ((Timeline.empty.add_country "a" 1 none).add_country "b" 2 none).countries
      = dictGet "a" (Timeline.empty.add_country "a" 1 none).countries := by
  have h := (add_frame (Timeline.empty.add_country "a" 1 none) "b" "a").2.2.2 2 none
  exact ⟨h.1, h.2.2.2 (by simp)⟩

/-! ### C9: rendering is deterministic and idempotent on the Timeline state -/

/-- C9: when a plot call succeeds, it returns the Timeline unchanged (no
statement of the method writes a collection), and a second plot call on the
resulting state with the same configuration succeeds with the identical
derived start and end, identical fence positions and identical x-ticks. -/
theorem plot_idempotent (t : Timeline) (cfg : PlotConfig) (r : RenderResult) (t' : Timeline)
    (h : t.plot cfg = .ok (r, t')) :
    t' = t ∧ t'.plot cfg = .ok (r, t') ∧
    t'.ages = t.ages ∧ t'.periods = t.periods ∧
    t'.countries = t.countries ∧ t'.events = t.events := by
  cases hs : t.start with
  | error err => simp [Timeline.plot, hs, Except.bind] at h
  | ok s =>
    cases he : t.«end» with
    | error err => simp [Timeline.plot, hs, he, Except.bind] at h
    | ok e =>
      simp only [Timeline.plot, hs, he, Except.bind, Except.ok.injEq, Prod.mk.injEq] at h
      obtain ⟨hr, ht⟩ := h
      subst ht
      refine ⟨rfl, ?_, rfl, rfl, rfl, rfl⟩
      simp [Timeline.plot, hs, he, Except.bind, hr]

/-- Witness for C9: a concrete Timeline with one event plots successfully,
and the theorem applies to that run. -/
theorem plot_idempotent_witness :
    (Timeline.empty.add_event "E" 0 (1/2) "k" 8 true none) =
      (Timeline.empty.add_event "E" 0 (1/2) "k" 8 true none) ∧
    ((Timeline.empty.add_event "E" 0 (1/2) "k" 8 true none).plot {}).isOk := by
  have hplot : (Timeline.empty.add_event "E" 0 (1/2) "k" 8 true none).plot {} =
      .ok ({ start := 0, «end» := 0, y_fences := [], xticks := [0] },
           Timeline.empty.add_event "E" 0 (1/2) "k" 8 true none) := by
    have h0 : xticksOf 0 0 = [0] := by
      have h1 : firstTick 0 = 0 := by norm_num [firstTick]
      have h2 : finalTick 0 = 100 := by norm_num [finalTick]
      rw [xticksOf, h1, h2, arange100]
      have h3 : (((100 : ℚ) - 0) / 100) = 1 := by norm_num
      rw [h3, show ⌈(1 : ℚ)⌉ = 1 from by norm_num,
        show ((1 : ℤ).toNat) = 1 from rfl, List.range_succ, List.range_zero]
      norm_num
    simp [Timeline.plot, Timeline.start, Timeline.«end», Timeline.empty, Timeline.add_event,
      Timeline.all_years, dictInsert, listMin, listMax, Timeline.countryYs, fencesOf, h0,
      Except.bind]
  have h := plot_idempotent (Timeline.empty.add_event "E" 0 (1/2) "k" 8 true none) {}
    { start := 0, «end» := 0, y_fences := [], xticks := [0] }
    (Timeline.empty.add_event "E" 0 (1/2) "k" 8 true none) hplot
  exact ⟨h.1, by rw [h.2.1]; rfl⟩

/-! ### C4: derived range on a nonempty Timeline -/

/-- C4: for a Timeline with at least one Age, Period or Event, the derived
start is the minimum and the derived end the maximum over every start and
end of every Age, every start and end of every Period, and every year of
every Event (the membership description of `all_years` is part of the
statement); start ≤ end; and adding countries changes neither value. -/
theorem derived_range (t : Timeline)
    (hne : t.ages ≠ [] ∨ t.periods ≠ [] ∨ t.events ≠ []) :
    ∃ s e : ℚ, t.start = .ok s ∧ t.«end» = .ok e ∧
      s ∈ t.all_years ∧ e ∈ t.all_years ∧
      (∀ x ∈ t.all_years, s ≤ x ∧ x ≤ e) ∧ s ≤ e ∧
      (∀ x : ℚ, x ∈ t.all_years ↔
        (∃ a ∈ t.ages, x = a.2.start ∨ x = a.2.«end») ∨
        (∃ p ∈ t.periods, x = p.2.start ∨ x = p.2.«end») ∨
        (∃ ev ∈ t.events, x = ev.2.year)) ∧
      (∀ (name : String) (y : ℚ) (url : Option String),
        (t.add_country name y url).start = t.start ∧
        (t.add_country name y url).«end» = t.«end») := by
  have hyne : t.all_years ≠ [] := by
    rcases hne with h | h | h
    · obtain ⟨a, ha⟩ := List.exists_mem_of_ne_nil _ h
      exact List.ne_nil_of_mem (mem_all_years.mpr (Or.inl ⟨a, ha, Or.inl rfl⟩))
    · obtain ⟨p, hp⟩ := List.exists_mem_of_ne_nil _ h
      exact List.ne_nil_of_mem (mem_all_years.mpr (Or.inr (Or.inl ⟨p, hp, Or.inl rfl⟩)))
    · obtain ⟨ev, hev⟩ := List.exists_mem_of_ne_nil _ h
      exact List.ne_nil_of_mem (mem_all_years.mpr (Or.inr (Or.inr ⟨ev, hev, rfl⟩)))
  refine ⟨listMin t.all_years, listMax t.all_years,
    by simp [Timeline.start, hyne], by simp [Timeline.«end», hyne],
    listMin_mem hyne, listMax_mem hyne,
    fun x hx => ⟨listMin_le hx, le_listMax hx⟩,
    listMin_le (listMax_mem hyne),
    fun x => mem_all_years,
    fun name y url => ?_⟩
  have hcountry : (t.add_country name y url).all_years = t.all_years := rfl
  constructor
  · simp [Timeline.start, hcountry]
  · simp [Timeline.«end», hcountry]

/-- Witness for C4: the Timeline with the single event "E" at year 7 has a
nonempty event collection, and the theorem applies. -/
theorem derived_range_witness :
    ∃ s e : ℚ,
      (Timeline.empty.add_event "E" 7 0 "k" 8 true none).start = .ok s ∧
      (Timeline.empty.add_event "E" 7 0 "k" 8 true none).«end» = .ok e ∧
      s ∈ (Timeline.empty.add_event "E" 7 0 "k" 8 true none).all_years ∧
      e ∈ (Timeline.empty.add_event "E" 7 0 "k" 8 true none).all_years ∧
      (∀ x ∈ (Timeline.empty.add_event "E" 7 0 "k" 8 true none).all_years, s ≤ x ∧ x ≤ e) ∧
      s ≤ e ∧
      (∀ x : ℚ, x ∈ (Timeline.empty.add_event "E" 7 0 "k" 8 true none).all_years ↔
        (∃ a ∈ (Timeline.empty.add_event "E" 7 0 "k" 8 true none).ages,
          x = a.2.start ∨ x = a.2.«end») ∨
        (∃ p ∈ (Timeline.empty.add_event "E" 7 0 "k" 8 true none).periods,
          x = p.2.start ∨ x = p.2.«end») ∨
        (∃ ev ∈ (Timeline.empty.add_event "E" 7 0 "k" 8 true none).events,
          x = ev.2.year)) ∧
      (∀ (name : String) (y : ℚ) (url : Option String),
        ((Timeline.empty.add_event "E" 7 0 "k" 8 true none).add_country name y url).start
          = (Timeline.empty.add_event "E" 7 0 "k" 8 true none).start ∧
        ((Timeline.empty.add_event "E" 7 0 "k" 8 true none).add_country name y url).«end»
          = (Timeline.empty.add_event "E" 7 0 "k" 8 true none).«end») :=
  derived_range (Timeline.empty.add_event "E" 7 0 "k" 8 true none)
    (Or.inr (Or.inr (by simp [Timeline.empty, Timeline.add_event, dictInsert])))

/-! ### C1: fence positions versus insertion order -/

/-- C1 counterexample: the same multiset of countries (y-positions 10, 20
and 40), inserted in two different orders, produces different fence
sequences — and even different fence multisets — because the computation
takes midpoints of consecutive y-positions in insertion order and never
sorts. -/
theorem fence_order_dependence :
    (((Timeline.empty.add_country "A" 10 none).add_country "B" 20 none).add_country
        "C" 40 none).countryYs.Perm
      (((Timeline.empty.add_country "A" 10 none).add_country "C" 40 none).add_country
        "B" 20 none).countryYs ∧
    fencesOf ((((Timeline.empty.add_country "A" 10 none).add_country "B" 20 none).add_country
        "C" 40 none).countryYs) = [15, 30, 50] ∧
    fencesOf ((((Timeline.empty.add_country "A" 10 none).add_country "C" 40 none).add_country
        "B" 20 none).countryYs) = [25, 30, 50] ∧
    ¬ (fencesOf ((((Timeline.empty.add_country "A" 10 none).add_country "B" 20 none).add_country
          "C" 40 none).countryYs)).Perm
        (fencesOf ((((Timeline.empty.add_country "A" 10 none).add_country "C" 40 none).add_country
          "B" 20 none).countryYs)) := by
  have h1 : (((Timeline.empty.add_country "A" 10 none).add_country "B" 20 none).add_country
      "C" 40 none).countryYs = [10, 20, 40] := rfl
  have h2 : (((Timeline.empty.add_country "A" 10 none).add_country "C" 40 none).add_country
      "B" 20 none).countryYs = [10, 40, 20] := rfl
  have e1 : fencesOf [10, 20, 40] = [15, 30, 50] := by
    simp [fencesOf, listMax]
    norm_num
  have e2 : fencesOf [10, 40, 20] = [25, 30, 50] := by
    simp [fencesOf, listMax]
    norm_num
  refine ⟨?_, ?_, ?_, ?_⟩
  · rw [h1, h2]
    decide
  · rw [h1]
    exact e1
  · rw [h2]
    exact e2
  · rw [h1, h2, e1, e2]
    decide

/-- C1 amended: with at most two countries the fence positions are
invariant to insertion order (shown here for two distinct country names in
either order); with three or more countries the computation, which does not
sort, can give different fences for different insertion orders. -/
theorem fence_order_invariant_two_countries (n₁ n₂ : String) (a b : ℚ)
    (u₁ u₂ : Option String) (hne : n₁ ≠ n₂) :
    fencesOf (((Timeline.empty.add_country n₁ a u₁).add_country n₂ b u₂).countryYs)
      = fencesOf (((Timeline.empty.add_country n₂ b u₂).add_country n₁ a u₁).countryYs) := by
  have h1 : ((Timeline.empty.add_country n₁ a u₁).add_country n₂ b u₂).countryYs = [a, b] := by
    simp [Timeline.empty, Timeline.add_country, Timeline.countryYs, dictInsert, hne]
  have h2 : ((Timeline.empty.add_country n₂ b u₂).add_country n₁ a u₁).countryYs = [b, a] := by
    simp [Timeline.empty, Timeline.add_country, Timeline.countryYs, dictInsert, Ne.symm hne]
  have e1 : fencesOf [a, b] = [(a + b) / 2, 2 * max a b - (a + b) / 2] := by
    simp [fencesOf, listMax]
  have e2 : fencesOf [b, a] = [(b + a) / 2, 2 * max b a - (b + a) / 2] := by
    simp [fencesOf, listMax]
  rw [h1, h2, e1, e2, add_comm b a, max_comm b a]

/-- Witness for the amended C1: two concrete countries at y-positions 1 and
2, inserted in either order, give the same fences. -/
theorem fence_order_invariant_two_countries_witness :
    fencesOf (((Timeline.empty.add_country "A" 1 none).add_country "B" 2 none).countryYs)
      = fencesOf (((Timeline.empty.add_country "B" 2 none).add_country "A" 1 none).countryYs) :=
  fence_order_invariant_two_countries "A" "B" 1 2 none none (by decide)

/-! ### C2: fence formula versus the sorted description of the spec -/

/-- The fence placement as the spec words it, for comparison with
`fencesOf` (the computation of the code): sort the country y-positions
ascending; with at least two countries place each interior fence at the
arithmetic mean of two consecutive sorted positions and append the top
fence `2 * max(y) - max(interior)`; with exactly one country place the sole
fence at `2 * y`; with none produce no fence. -/
def fencesSpecSorted (ys : List ℚ) : List ℚ :=
  let s := ys.insertionSort (· ≤ ·)
  if 2 ≤ s.length then
    let interior := (s.zip s.tail).map fun p => (p.1 + p.2) / 2
    interior ++ [2 * listMax s - listMax interior]
  else if s.length = 1 then
    s.map fun y => 2 * y
  else
    []

/-- C2 counterexample: countries with y-positions 10, 40, 20 inserted in
that order. The code produces the fence 25 (midpoint of the consecutive
insertion-order pair 10, 40), which is not an arithmetic mean of two
consecutive sorted y-positions; the sorted description of the spec gives
[15, 30, 50] instead. -/
theorem fence_sorted_spec_counterexample :
    fencesOf ((((Timeline.empty.add_country "A" 10 none).add_country "C" 40 none).add_country
        "B" 20 none).countryYs) = [25, 30, 50] ∧
    fencesSpecSorted ((((Timeline.empty.add_country "A" 10 none).add_country "C" 40 none).add_country
        "B" 20 none).countryYs) = [15, 30, 50] ∧
    ([25, 30, 50] : List ℚ) ≠ [15, 30, 50] := by
  have h2 : (((Timeline.empty.add_country "A" 10 none).add_country "C" 40 none).add_country
      "B" 20 none).countryYs = [10, 40, 20] := rfl
  have hsort : (([10, 40, 20] : List ℚ).insertionSort (· ≤ ·)) = [10, 20, 40] := by decide
  refine ⟨?_, ?_, by decide⟩
  · rw [h2]
    simp [fencesOf, listMax]
    norm_num
  · rw [h2]
    rw [fencesSpecSorted]
    simp only [hsort]
    simp [listMax]
    norm_num

/-- C2 amended: for every Timeline whose country y-positions are already in
ascending order (in particular whenever countries are inserted bottom to
top), the code agrees with the sorted description of the spec: n−1 interior
fences at the means of consecutive sorted y-positions plus the top fence
`2 * max(y) - max(interior)`; countries at y-positions 10, 20, 40 in that
order yield the fences [15, 30, 50]. -/
theorem fence_sorted_spec_agree :
    (∀ t : Timeline, List.Sorted (· ≤ ·) t.countryYs →
      fencesOf t.countryYs = fencesSpecSorted t.countryYs) ∧
    fencesOf [10, 20, 40] = [15, 30, 50] ∧
    fencesSpecSorted [10, 20, 40] = [15, 30, 50] := by
  have key : ∀ ys : List ℚ, List.Sorted (· ≤ ·) ys → fencesOf ys = fencesSpecSorted ys := by
    intro ys hs
    rw [fencesSpecSorted]
    simp only [List.Sorted.insertionSort_eq hs]
    rw [fencesOf]
    rcases ys with _ | ⟨a, _ | ⟨b, l⟩⟩
    · simp
    · simp
    · simp [Nat.succ_le_succ, le_refl]
  refine ⟨fun t => key t.countryYs, ?_, ?_⟩
  · simp [fencesOf, listMax]
    norm_num
  · rw [← key [10, 20, 40] (by decide)]
    simp [fencesOf, listMax]
    norm_num

/-! ### C7: x-axis tick computation -/

/-- The x-ticks are exactly the multiples of 100 strictly greater than
`start - 1` and at most `end`: the generation bound `final_tick` (the
smallest multiple of 100 strictly greater than `end`) is exclusive in
`np.arange`. -/
theorem mem_xticksOf (s e x : ℚ) :
    x ∈ xticksOf s e ↔ (∃ k : ℤ, x = 100 * k) ∧ s - 1 < x ∧ x ≤ e := by
  have h100 : (0 : ℚ) < 100 := by norm_num
  have hceil : ⌈(finalTick e - firstTick s) / 100⌉ = ⌊e / 100⌋ - ⌊(s - 1) / 100⌋ := by
    have hq : (finalTick e - firstTick s) / 100
        = ((⌊e / 100⌋ - ⌊(s - 1) / 100⌋ : ℤ) : ℚ) := by
      rw [firstTick, finalTick]
      push_cast
      ring
    rw [hq, Int.ceil_intCast]
  rw [xticksOf, arange100, hceil, List.mem_map]
  constructor
  · rintro ⟨i, hi, rfl⟩
    rw [List.mem_range] at hi
    have hiZ : (i : ℤ) < ⌊e / 100⌋ - ⌊(s - 1) / 100⌋ := by omega
    have hfloor1 : (s - 1) / 100 < (⌊(s - 1) / 100⌋ : ℚ) + 1 := Int.lt_floor_add_one _
    have hfirst : s - 1 < firstTick s := by
      rw [firstTick]
      have := (div_lt_iff₀ h100).mp hfloor1
      linarith
    refine ⟨⟨⌊(s - 1) / 100⌋ + 1 + i, ?_⟩, ?_, ?_⟩
    · rw [firstTick]
      push_cast
      ring
    · have hnn : (0 : ℚ) ≤ 100 * (i : ℚ) := by positivity
      linarith
    · have hle : ⌊(s - 1) / 100⌋ + 1 + (i : ℤ) ≤ ⌊e / 100⌋ := by omega
      have hcast : ((⌊(s - 1) / 100⌋ + 1 + (i : ℤ) : ℤ) : ℚ) ≤ e / 100 := Int.le_floor.mp hle
      have hmul := (le_div_iff₀ h100).mp hcast
      rw [firstTick]
      push_cast at hmul ⊢
      linarith
  · rintro ⟨⟨k, rfl⟩, hlt, hle⟩
    have hkF : ⌊(s - 1) / 100⌋ < k := by
      apply Int.floor_lt.mpr
      rw [div_lt_iff₀ h100]
      linarith
    have hkE : k ≤ ⌊e / 100⌋ := by
      apply Int.le_floor.mpr
      rw [le_div_iff₀ h100]
      linarith
    refine ⟨(k - (⌊(s - 1) / 100⌋ + 1)).toNat, ?_, ?_⟩
    · rw [List.mem_range]
      omega
    · have hiZ : (((k - (⌊(s - 1) / 100⌋ + 1)).toNat : ℕ) : ℤ)
          = k - ⌊(s - 1) / 100⌋ - 1 := by omega
      have hiQ : (((k - (⌊(s - 1) / 100⌋ + 1)).toNat : ℕ) : ℚ)
          = (k : ℚ) - (⌊(s - 1) / 100⌋ : ℚ) - 1 := by
        have hc := congrArg (fun z : ℤ => (z : ℚ)) hiZ
        push_cast at hc
        exact hc
      rw [firstTick, hiQ]
      ring

/-- Consecutive x-ticks are spaced exactly 100 units apart. -/
theorem chain'_xticksOf (s e : ℚ) :
    List.Chain' (fun a b => b = a + 100) (xticksOf s e) := by
  rw [xticksOf, arange100]
  cases hn : (⌈(finalTick e - firstTick s) / 100⌉).toNat with
  | zero => simp
  | succ m =>
    rw [List.chain'_map, List.chain'_range_succ]
    intro i hi
    push_cast
    ring

/-- C7 counterexample: the Timeline with one Age spanning 100 to 200 and
one Event at year 250 derives start 100 and end 250, and its x-ticks are
[100, 200]: the first tick is 100 (the smallest multiple of 100 greater
than 99), not 200, and the last tick is 200, not the smallest multiple of
100 strictly greater than the end (300, which is the exclusive bound of the
generation). -/
theorem xticks_claim_counterexample :
    ((Timeline.empty.add_age "A" 100 200 "c" (9/10) (1/2) (1/10) none).add_event
      "E" 250 (1/2) "k" 8 true none).start = .ok 100 ∧
    ((Timeline.empty.add_age "A" 100 200 "c" (9/10) (1/2) (1/10) none).add_event
      "E" 250 (1/2) "k" 8 true none).«end» = .ok 250 ∧
    xticksOf 100 250 = [100, 200] ∧
    ([100, 200] : List ℚ).head? = some 100 ∧
    some (100 : ℚ) ≠ some 200 ∧
    ([100, 200] : List ℚ).getLast? = some 200 ∧
    some (200 : ℚ) ≠ some 300 := by
  have hyears : ((Timeline.empty.add_age "A" 100 200 "c" (9/10) (1/2) (1/10) none).add_event
      "E" 250 (1/2) "k" 8 true none).all_years = [100, 200, 250] := rfl
  have hticks : xticksOf 100 250 = [100, 200] := by
    have h1 : firstTick 100 = 100 := by norm_num [firstTick]
    have h2 : finalTick 250 = 300 := by norm_num [finalTick]
    rw [xticksOf, h1, h2, arange100]
    have h3 : (((300 : ℚ) - 100) / 100) = ((2 : ℤ) : ℚ) := by norm_num
    rw [h3, Int.ceil_intCast, show ((2 : ℤ).toNat) = 2 from rfl,
      List.range_succ, List.range_succ, List.range_zero]
    norm_num
  refine ⟨?_, ?_, hticks, rfl, by norm_num, rfl, by norm_num⟩
  · rw [Timeline.start, hyears,
      if_neg (show ¬([100, 200, 250] : List ℚ) = [] by simp)]
    norm_num [listMin, min_def]
  · rw [Timeline.«end», hyears,
      if_neg (show ¬([100, 200, 250] : List ℚ) = [] by simp)]
    norm_num [listMax, max_def]

/-- C7 amended: the x-ticks are exactly the multiples of 100 strictly
greater than `start - 1` (so the first tick is the smallest such multiple)
and at most `end` (the generation bound, the smallest multiple of 100
strictly greater than `end`, is exclusive, so the last tick is the greatest
multiple of 100 at most `end`); consecutive ticks are 100 apart; for
derived start 100 and derived end 250 the ticks are [100, 200]. -/
theorem xticks_exact :
    (∀ s e x : ℚ, x ∈ xticksOf s e ↔ (∃ k : ℤ, x = 100 * k) ∧ s - 1 < x ∧ x ≤ e) ∧
    (∀ s e : ℚ, List.Chain' (fun a b => b = a + 100) (xticksOf s e)) ∧
    xticksOf 100 250 = [100, 200] := by
  refine ⟨mem_xticksOf, chain'_xticksOf, ?_⟩
  have h1 : firstTick 100 = 100 := by norm_num [firstTick]
  have h2 : finalTick 250 = 300 := by norm_num [finalTick]
  rw [xticksOf, h1, h2, arange100]
  have h3 : (((300 : ℚ) - 100) / 100) = ((2 : ℤ) : ℚ) := by norm_num
  rw [h3, Int.ceil_intCast, show ((2 : ℤ).toNat) = 2 from rfl,
    List.range_succ, List.range_succ, List.range_zero]
  norm_num

/-- Witness for the amended C2: countries inserted bottom to top at
y-positions 10, 20, 40 have an ascending y-sequence, and the code agrees
with the sorted description of the spec there. -/
theorem fence_sorted_spec_agree_witness :
    List.Sorted (· ≤ ·) (((Timeline.empty.add_country "A" 10 none).add_country
      "B" 20 none).add_country "C" 40 none).countryYs ∧
    fencesOf ((((Timeline.empty.add_country "A" 10 none).add_country
        "B" 20 none).add_country "C" 40 none).countryYs)
      = fencesSpecSorted ((((Timeline.empty.add_country "A" 10 none).add_country
        "B" 20 none).add_country "C" 40 none).countryYs) :=
  ⟨by decide, fence_sorted_spec_agree.1 _ (by decide)⟩

/-- Witness for C5: the empty Timeline has zero countries and zero fences. -/
theorem fence_count_witness :
    (fencesOf Timeline.empty.countryYs).length = Timeline.empty.countries.length ∧
    fencesOf Timeline.empty.countryYs = [] :=
  ⟨(fence_count Timeline.empty).1, (fence_count Timeline.empty).2 rfl⟩
